import Mathlib

/-!
Verification of the orchestration core of `multi_agent_coder`
(`src/multiagent_dev/orchestrator.py`, `approvals.py`, `tools/registry.py`).

The embedding is shallow and executable:
* JSON-compatible Python values (message metadata, serialized state) are the
  inductive `Json`; Python `dict`s are association lists with first-match
  lookup, insertion-order update and `setdefault` mirroring `dict` semantics.
* agents are deterministic handlers `AgentMessage → List AgentMessage`,
  registered in a partial map `String → Option _` (the `_agents` dict);
* raising an `OrchestratorError` is returning `Except.error` with the
  exact message string built by the source;
* the async superstep loop of `run_task_async` is `runLoopFuel`, structural
  on an explicit fuel which the wrapper `runLoop` instantiates with
  `(max_steps - processed).toNat`, an upper bound on the number of loop
  iterations (each iteration drains a non-empty batch, so `processed`
  strictly increases while the loop requires `processed < max_steps`).
-/

/-- JSON-compatible Python value: `None`, `bool`, `int`, `str`, `list`, `dict`. -/
inductive Json where
  | null : Json
  | bool (b : Bool) : Json
  | int (n : Int) : Json
  | str (s : String) : Json
  | arr (items : List Json) : Json
  | obj (fields : List (String × Json)) : Json

/-- Python `dict.get`: the value at `key`, or `none`.  Dictionaries built by
the source have unique keys; lookup takes the first match. -/
def dictGet {α : Type} (key : String) : List (String × α) → Option α
  | [] => none
  | (k, v) :: rest => if k = key then some v else dictGet key rest

/-- Python `d[key] = v`: replace the value at the key's original position,
or append a fresh binding at the end. -/
def dictUpdate {α : Type} (l : List (String × α)) (key : String) (v : α) :
    List (String × α) :=
  match l with
  | [] => [(key, v)]
  | (k, w) :: rest =>
    if k = key then (k, v) :: rest else (k, w) :: dictUpdate rest key v

/-- Python `dict.setdefault(key, v)`: insert at the end only when absent. -/
def dictSetdefault {α : Type} (l : List (String × α)) (key : String) (v : α) :
    List (String × α) :=
  if (dictGet key l).isSome then l else l ++ [(key, v)]

/-- Python dict-literal merge `{"k": v, **extra}`: later entries win. -/
def dictMerge {α : Type} (base : List (String × α)) (extra : List (String × α)) :
    List (String × α) :=
  extra.foldl (fun acc kv => dictUpdate acc kv.1 kv.2) base

/-- Metadata maps attached to messages and requests (`dict[str, Any]`). -/
abbrev Metadata := List (String × Json)

/-- `agents/base.py`: `AgentMessage` — a message routed by the orchestrator. -/
structure AgentMessage where
  sender : String
  recipient : String
  content : String
  metadata : Metadata

/-- `approvals.py`: `ApprovalRequest`. -/
structure ApprovalRequest where
  action : String
  description : String
  metadata : Metadata

/-- `approvals.py`: `ApprovalDecision`.  `notes` is `str | None`. -/
structure ApprovalDecision where
  approved : Bool
  approver : String
  notes : Option String

/-- `approvals.py`: `ApprovalPolicy` with its field defaults. -/
structure ApprovalPolicy where
  mode : String := "autonomous"
  require_execution_approval : Bool := false
  require_commit_approval : Bool := true
  user_proxy_agent_id : String := "user_proxy"

/-- `ApprovalPolicy.requires_approval`, line for line. -/
def ApprovalPolicy.requires_approval (p : ApprovalPolicy) (tool_name : String) :
    Bool :=
  if p.mode ≠ "approval-required" then false
  else if tool_name = "run_command" then p.require_execution_approval
  else if tool_name = "vcs_commit" then p.require_commit_approval
  else false

/-- `tools/base.py`: `ToolResult`. -/
structure ToolResult where
  name : String
  success : Bool
  output : Option Json
  error : Option String

/-- C4: `requires_approval(tool_name)` is a pure function of the policy
fields and the name: `false` for every name when the mode is not
"approval-required"; under "approval-required" it is
`require_execution_approval` for "run_command", `require_commit_approval`
for "vcs_commit", and `false` for every other name. -/
theorem requires_approval_pure_characterization
    (p : ApprovalPolicy) (tool_name : String) :
    (p.mode ≠ "approval-required" → p.requires_approval tool_name = false) ∧
    (p.mode = "approval-required" →
      p.requires_approval tool_name =
        (if tool_name = "run_command" then p.require_execution_approval
         else if tool_name = "vcs_commit" then p.require_commit_approval
         else false)) := by
  constructor
  · intro h
    simp [ApprovalPolicy.requires_approval, h]
  · intro h
    simp [ApprovalPolicy.requires_approval, h]

/-- Witness for C4 at a concrete policy and tool name. -/
theorem requires_approval_pure_characterization_witness :
    (ApprovalPolicy.requires_approval
      { mode := "approval-required", require_execution_approval := true,
        require_commit_approval := false, user_proxy_agent_id := "user_proxy" }
      "run_command") = true ∧
    (ApprovalPolicy.requires_approval
      { mode := "autonomous", require_execution_approval := true,
        require_commit_approval := true, user_proxy_agent_id := "user_proxy" }
      "vcs_commit") = false := by
  constructor
  · have h := requires_approval_pure_characterization
      { mode := "approval-required", require_execution_approval := true,
        require_commit_approval := false, user_proxy_agent_id := "user_proxy" }
      "run_command"
    simpa using h.2 rfl
  · have h := requires_approval_pure_characterization
      { mode := "autonomous", require_execution_approval := true,
        require_commit_approval := true, user_proxy_agent_id := "user_proxy" }
      "vcs_commit"
    exact h.1 (by decide)

/-- `tools/registry.py` / `tools/base.py`: a registered tool is its unique
name and its `execute`; `Except.error` models `execute` raising
`ToolExecutionError`. -/
structure Tool where
  name : String
  execute : Metadata → Except String ToolResult

/-- `tools/registry.py`: `ToolRegistry` (`_tools: dict[str, Tool]`). -/
structure ToolRegistry where
  tools : List (String × Tool)

/-- `ToolRegistry.register`: raising `ToolRegistrationError` is the
`Except.error` component; the second component is the registry the caller
keeps, unchanged when the registration fails. -/
def ToolRegistry.register (reg : ToolRegistry) (tool : Tool) :
    Except String Unit × ToolRegistry :=
  if (dictGet tool.name reg.tools).isSome then
    (Except.error ("Tool '" ++ tool.name ++ "' is already registered"), reg)
  else
    (Except.ok (), { tools := dictUpdate reg.tools tool.name tool })

/-- `ToolRegistry.get`, raising `ToolNotFoundError` as `Except.error`. -/
def ToolRegistry.get (reg : ToolRegistry) (name : String) : Except String Tool :=
  match dictGet name reg.tools with
  | none => Except.error ("Tool '" ++ name ++ "' is not registered")
  | some tool => Except.ok tool

/-- `ToolRegistry.execute`: look the tool up and run it on a copy of the
arguments (copying an association list is the identity here). -/
def ToolRegistry.execute (reg : ToolRegistry) (name : String)
    (arguments : Metadata) : Except String ToolResult :=
  match reg.get name with
  | Except.error e => Except.error e
  | Except.ok tool => tool.execute arguments

/-- `orchestrator.py`: the `Orchestrator` fields the approval and tool
paths use.  Agents are deterministic handlers looked up by id (`_agents`). -/
structure Orchestrator where
  agents : String → Option (AgentMessage → List AgentMessage)
  tool_registry : ToolRegistry
  approval_policy : ApprovalPolicy
  approval_counter : Int
  pending_approvals : List (String × ApprovalRequest)

/-- `Orchestrator.execute_tool`.  The first component is the outcome
(`Except.error` models raising `OrchestratorError`, with the source's
message text); the second is the trace of invocations of an underlying
tool's `execute`, so that "the tool was never invoked" is `= []`.
`ToolRegistry.execute` is inlined so the trace can record the call. -/
def Orchestrator.execute_tool (o : Orchestrator) (name : String)
    (arguments : Metadata) (caller : Option String) :
    Except String ToolResult × List (String × Metadata) :=
  if o.approval_policy.requires_approval name then
    (Except.error ("Tool '" ++ name ++ "' requires explicit approval via request_approval."),
     [])
  else
    match dictGet name o.tool_registry.tools with
    | none => (Except.error ("Tool '" ++ name ++ "' is not registered"), [])
    | some tool =>
      match tool.execute arguments with
      | Except.error e => (Except.error e, [(name, arguments)])
      | Except.ok result => (Except.ok result, [(name, arguments)])

/-- Conversion of the `notes` metadata entry (`str | None` in the model;
the dataclass annotates `notes: str | None`). -/
def notesOfJson : Option Json → Option String
  | some (Json.str s) => some s
  | _ => none

/-- `Orchestrator._extract_decision`: scan the proxy's responses for the
first one whose metadata carries the matching request id, a boolean
`approved` and a string `approver`; others are skipped. -/
def extract_decision (request_id : String) :
    List AgentMessage → Option ApprovalDecision
  | [] => none
  | response :: rest =>
    match dictGet "approval_request_id" response.metadata with
    | some (Json.str rid) =>
      if rid = request_id then
        match dictGet "approved" response.metadata,
              dictGet "approver" response.metadata with
        | some (Json.bool approved), some (Json.str approver) =>
          some { approved := approved, approver := approver,
                 notes := notesOfJson (dictGet "notes" response.metadata) }
        | _, _ => extract_decision request_id rest
      else extract_decision request_id rest
    | _ => extract_decision request_id rest

/-- `Orchestrator.request_approval`.  On success it returns the decision,
the orchestrator with its mutated `_approval_counter` and
`_pending_approvals`, and the list of messages delivered to an agent
during the call (the direct proxy round-trip; empty in autonomous mode). -/
def Orchestrator.request_approval (o : Orchestrator) (request : ApprovalRequest) :
    Except String (ApprovalDecision × Orchestrator × List AgentMessage) :=
  if o.approval_policy.mode ≠ "approval-required" then
    Except.ok ({ approved := true, approver := "system",
                 notes := some "Autonomous mode: approval bypassed." }, o, [])
  else
    let counter := o.approval_counter + 1
    let request_id := "approval-" ++ toString counter
    let pending := dictUpdate o.pending_approvals request_id request
    let agent_id := o.approval_policy.user_proxy_agent_id
    match o.agents agent_id with
    | none =>
      Except.error ("User proxy agent '" ++ agent_id ++ "' is not registered.")
    | some handler =>
      let message : AgentMessage :=
        { sender := "orchestrator", recipient := agent_id,
          content := request.description,
          metadata := [("approval_request_id", Json.str request_id),
                       ("action", Json.str request.action),
                       ("metadata", Json.obj request.metadata)] }
      match extract_decision request_id (handler message) with
      | none =>
        Except.error
          ("User proxy did not return a decision for request '" ++ request_id ++ "'.")
      | some decision =>
        Except.ok (decision,
          { o with approval_counter := counter, pending_approvals := pending },
          [message])

/-- Python `str.strip()`: drop whitespace from both ends. -/
def pyStrip (s : String) : String :=
  String.mk (((s.data.dropWhile Char.isWhitespace).reverse.dropWhile
    Char.isWhitespace).reverse)

/-- Approval request built by `execute_tool_with_approval` when the caller
supplies none (`request or ApprovalRequest(...)`). -/
def approvalRequestFor (name : String) (arguments : Metadata)
    (caller : Option String) (request : Option ApprovalRequest) : ApprovalRequest :=
  request.getD
    { action := name,
      description := "Approve tool execution for '" ++ name ++ "'.",
      metadata := [("arguments", Json.obj arguments),
                   ("caller", match caller with
                              | some c => Json.str c
                              | none => Json.null)] }

/-- `Orchestrator.execute_tool_with_approval`: outcome, resulting
orchestrator, trace of underlying tool invocations, messages delivered to
the proxy. -/
def Orchestrator.execute_tool_with_approval (o : Orchestrator) (name : String)
    (arguments : Metadata) (caller : Option String)
    (request : Option ApprovalRequest) :
    Except String ToolResult × Orchestrator × List (String × Metadata) ×
      List AgentMessage :=
  if o.approval_policy.requires_approval name then
    match o.request_approval (approvalRequestFor name arguments caller request) with
    | Except.error e => (Except.error e, o, [], [])
    | Except.ok (decision, o2, delivered) =>
      if decision.approved then
        let arguments2 :=
          dictSetdefault (dictSetdefault arguments "approved" (Json.bool true))
            "approver" (Json.str decision.approver)
        let r := o2.execute_tool name arguments2 caller
        (r.1, o2, r.2, delivered)
      else
        (Except.ok { name := name, success := false, output := none,
                     error := some (pyStrip
                       ("Approval rejected by " ++ decision.approver ++ ": " ++
                         decision.notes.getD "")) },
         o2, [], delivered)
  else
    let r := o.execute_tool name arguments caller
    (r.1, o, r.2, [])

/-- Helper: the value stored by `dictUpdate` at its own key. -/
theorem dictGet_dictUpdate_self {α : Type} (l : List (String × α)) (key : String)
    (v : α) : dictGet key (dictUpdate l key v) = some v := by
  induction l with
  | nil => simp [dictUpdate, dictGet]
  | cons kv rest ih =>
    obtain ⟨k, w⟩ := kv
    by_cases h : k = key
    · simp [dictUpdate, dictGet, h]
    · simp [dictUpdate, dictGet, h, ih]

/-- C6: a direct `execute_tool` call on a tool name the policy gates raises
the fatal `OrchestratorError` before any registry lookup or invocation: the
outcome is the error and the invocation trace is empty, whatever the
registry holds.  Gated tools can therefore run only through
`execute_tool_with_approval`. -/
theorem execute_tool_rejects_gated (o : Orchestrator) (name : String)
    (arguments : Metadata) (caller : Option String)
    (h : o.approval_policy.requires_approval name = true) :
    o.execute_tool name arguments caller =
      (Except.error
        ("Tool '" ++ name ++ "' requires explicit approval via request_approval."),
       []) := by
  simp [Orchestrator.execute_tool, h]

/-- C5: when `execute_tool_with_approval` is called on a gated name and the
decision it obtains has `approved = false`, it returns the
"Approval rejected by <approver>: <notes>" `ToolResult` with
`success = false`, and the underlying tool's `execute` is never invoked
(empty invocation trace). -/
theorem execute_tool_with_approval_rejection (o : Orchestrator) (name : String)
    (arguments : Metadata) (caller : Option String)
    (request : Option ApprovalRequest) (decision : ApprovalDecision)
    (o2 : Orchestrator) (delivered : List AgentMessage)
    (hgate : o.approval_policy.requires_approval name = true)
    (hreq : o.request_approval (approvalRequestFor name arguments caller request) =
      Except.ok (decision, o2, delivered))
    (hrej : decision.approved = false) :
    o.execute_tool_with_approval name arguments caller request =
      (Except.ok { name := name, success := false, output := none,
                   error := some (pyStrip
                     ("Approval rejected by " ++ decision.approver ++ ": " ++
                       decision.notes.getD "")) },
       o2, [], delivered) := by
  simp [Orchestrator.execute_tool_with_approval, hgate, hreq, hrej]

/-- C9 (amended): in approval-required mode, once `request_approval`
returns a decision, the request is still recorded: the fresh request id
maps to the request in the resulting pending-approvals map (the source
never deletes the entry). -/
theorem request_approval_keeps_pending (o : Orchestrator)
    (request : ApprovalRequest) (decision : ApprovalDecision) (o2 : Orchestrator)
    (delivered : List AgentMessage)
    (hmode : o.approval_policy.mode = "approval-required")
    (h : o.request_approval request = Except.ok (decision, o2, delivered)) :
    dictGet ("approval-" ++ toString (o.approval_counter + 1))
        o2.pending_approvals = some request := by
  unfold Orchestrator.request_approval at h
  rw [if_neg (by simp [hmode])] at h
  simp only [] at h
  split at h
  · exact absurd h (by simp)
  · split at h
    · exact absurd h (by simp)
    · have h2 := (Except.ok.injEq _ _).mp h
      have ho2 : o2 = { o with approval_counter := o.approval_counter + 1,
                               pending_approvals :=
                                 dictUpdate o.pending_approvals
                                   ("approval-" ++ toString (o.approval_counter + 1))
                                   request } := by
        have := congrArg (fun t => t.2.1) h2
        simpa using this.symm
      rw [ho2]
      exact dictGet_dictUpdate_self o.pending_approvals _ request

/-- Fixture: a user-proxy handler echoing back an approving decision
(mirrors `ApprovalAgent` in `tests/test_orchestrator.py`). -/
def approvingProxyHandler : AgentMessage → List AgentMessage :=
  fun message =>
    [{ sender := "user_proxy", recipient := message.sender,
       content := "approval response",
       metadata := [("approval_request_id",
                      (dictGet "approval_request_id" message.metadata).getD Json.null),
                    ("approved", Json.bool true),
                    ("approver", Json.str "tester")] }]

/-- Fixture: the same proxy handler, rejecting. -/
def rejectingProxyHandler : AgentMessage → List AgentMessage :=
  fun message =>
    [{ sender := "user_proxy", recipient := message.sender,
       content := "approval response",
       metadata := [("approval_request_id",
                      (dictGet "approval_request_id" message.metadata).getD Json.null),
                    ("approved", Json.bool false),
                    ("approver", Json.str "tester")] }]

/-- Fixture: an echo tool under the gated name "run_command". -/
def echoTool : Tool :=
  { name := "run_command",
    execute := fun arguments =>
      Except.ok { name := "run_command", success := true,
                  output := some (Json.obj arguments), error := none } }

/-- Fixture: an approval-required orchestrator with an approving proxy. -/
def approvingOrchestrator : Orchestrator :=
  { agents := fun id => if id = "user_proxy" then some approvingProxyHandler else none,
    tool_registry := { tools := [("run_command", echoTool)] },
    approval_policy := { mode := "approval-required",
                         require_execution_approval := true,
                         require_commit_approval := true,
                         user_proxy_agent_id := "user_proxy" },
    approval_counter := 0,
    pending_approvals := [] }

/-- Fixture: an approval-required orchestrator with a rejecting proxy. -/
def rejectingOrchestrator : Orchestrator :=
  { approvingOrchestrator with
      agents := fun id => if id = "user_proxy" then some rejectingProxyHandler else none }

/-- Fixture: a concrete approval request. -/
def sampleRequest : ApprovalRequest :=
  { action := "run_command", description := "Run command?", metadata := [] }

/-- C9 counterexample: the claim says the matched request is consumed from
the pending-approvals map, but after `request_approval` returns a matching
decision the request id "approval-1" is still present. -/
theorem request_approval_consumption_cex :
    ∃ decision o2 delivered,
      approvingOrchestrator.request_approval sampleRequest =
        Except.ok (decision, o2, delivered) ∧
      decision.approved = true ∧
      dictGet "approval-1" o2.pending_approvals = some sampleRequest := by
  exact ⟨_, _, _, rfl, rfl, rfl⟩

/-- Projection of the concrete `request_approval` run used by witnesses. -/
def approvalRunOutput : ApprovalDecision × Orchestrator × List AgentMessage :=
  match approvingOrchestrator.request_approval sampleRequest with
  | Except.ok out => out
  | Except.error _ => ({ approved := false, approver := "", notes := none },
                       approvingOrchestrator, [])

/-- Witness for C9's amended theorem at the concrete orchestrator. -/
theorem request_approval_keeps_pending_witness :
    dictGet "approval-1" approvalRunOutput.2.1.pending_approvals =
      some sampleRequest :=
  request_approval_keeps_pending approvingOrchestrator sampleRequest
    approvalRunOutput.1 approvalRunOutput.2.1 approvalRunOutput.2.2 rfl rfl

/-- Witness for C6: even with "run_command" registered, the gated direct
call fails with the fatal error and an empty invocation trace. -/
theorem execute_tool_rejects_gated_witness :
    approvingOrchestrator.execute_tool "run_command" [] (some "tester") =
      (Except.error
        "Tool 'run_command' requires explicit approval via request_approval.",
       []) :=
  execute_tool_rejects_gated approvingOrchestrator "run_command" [] (some "tester") rfl

/-- Projection of the concrete rejected `request_approval` run. -/
def rejectionRunOutput : ApprovalDecision × Orchestrator × List AgentMessage :=
  match rejectingOrchestrator.request_approval
      (approvalRequestFor "run_command" [] (some "tester") none) with
  | Except.ok out => out
  | Except.error _ => ({ approved := true, approver := "", notes := none },
                       rejectingOrchestrator, [])

/-- Witness for C5 at the concrete rejecting orchestrator. -/
theorem execute_tool_with_approval_rejection_witness :
    rejectingOrchestrator.execute_tool_with_approval "run_command" []
        (some "tester") none =
      (Except.ok { name := "run_command", success := false, output := none,
                   error := some "Approval rejected by tester:" },
       rejectionRunOutput.2.1, [], rejectionRunOutput.2.2) :=
  execute_tool_with_approval_rejection rejectingOrchestrator "run_command" []
    (some "tester") none rejectionRunOutput.1 rejectionRunOutput.2.1
    rejectionRunOutput.2.2 rfl rfl rfl

/-- C10: registering a tool whose name is already registered fails with
`ToolRegistrationError` and leaves the registry unchanged: `get` still
returns the originally registered tool and `execute` still invokes it. -/
theorem register_duplicate_rejected (reg : ToolRegistry) (tool tool0 : Tool)
    (h : dictGet tool.name reg.tools = some tool0) :
    (reg.register tool).1 =
      Except.error ("Tool '" ++ tool.name ++ "' is already registered") ∧
    (reg.register tool).2 = reg ∧
    (reg.register tool).2.get tool.name = Except.ok tool0 ∧
    ∀ arguments, (reg.register tool).2.execute tool.name arguments =
      tool0.execute arguments := by
  have hreg : reg.register tool =
      (Except.error ("Tool '" ++ tool.name ++ "' is already registered"), reg) := by
    simp [ToolRegistry.register, h]
  refine ⟨by rw [hreg], by rw [hreg], ?_, ?_⟩
  · rw [hreg]
    simp [ToolRegistry.get, h]
  · intro arguments
    rw [hreg]
    simp [ToolRegistry.execute, ToolRegistry.get, h]

/-- Fixture: a second tool under the same name "run_command". -/
def echoToolClone : Tool :=
  { name := "run_command",
    execute := fun _ =>
      Except.ok { name := "run_command", success := true,
                  output := none, error := none } }

/-- Witness for C10 at a concrete registry holding `echoTool`. -/
theorem register_duplicate_rejected_witness :
    (ToolRegistry.register { tools := [("run_command", echoTool)] } echoToolClone).1 =
      Except.error "Tool 'run_command' is already registered" ∧
    (ToolRegistry.register { tools := [("run_command", echoTool)] } echoToolClone).2 =
      { tools := [("run_command", echoTool)] } ∧
    (ToolRegistry.register
        { tools := [("run_command", echoTool)] } echoToolClone).2.execute
        "run_command" [("cmd", Json.str "ls")] =
      echoTool.execute [("cmd", Json.str "ls")] := by
  have h := register_duplicate_rejected { tools := [("run_command", echoTool)] }
    echoToolClone echoTool rfl
  exact ⟨h.1, h.2.1, h.2.2.2 [("cmd", Json.str "ls")]⟩

/-- `orchestrator.py`: `UserTask` with its field defaults. -/
structure UserTask where
  task_id : String
  description : String
  initial_agent_id : String := "planner"
  initial_metadata : Metadata := []

/-- `orchestrator.py`: `TaskResult`. -/
structure TaskResult where
  task_id : String
  completed : Bool
  messages_processed : Int
  history : List AgentMessage

/-- `orchestrator.py`: `WorkflowState` (counts are Python `int`s). -/
structure WorkflowState where
  task_id : String
  task_description : String
  initial_agent_id : String
  pending_messages : List AgentMessage
  history : List AgentMessage
  messages_processed : Int
  approval_counter : Int
  pending_approvals : List (String × ApprovalRequest)

/-- `response.metadata.setdefault("task_id", task.task_id)` applied to a
response before it is enqueued. -/
def setTaskIdDefault (task_id : String) (m : AgentMessage) : AgentMessage :=
  { m with metadata := dictSetdefault m.metadata "task_id" (Json.str task_id) }

/-- One superstep's `asyncio.gather` of `_dispatch_async` over the drained
batch: resolve every recipient and collect each handler's responses, in
batch order.  An unresolved recipient raises the fatal
"Unknown agent: <id>" error (the first one in batch order propagates),
failing the whole batch. -/
def dispatchBatch (agents : String → Option (AgentMessage → List AgentMessage)) :
    List AgentMessage → Except String (List (List AgentMessage))
  | [] => Except.ok []
  | message :: rest =>
    match agents message.recipient with
    | none => Except.error ("Unknown agent: " ++ message.recipient)
    | some handler =>
      match dispatchBatch agents rest with
      | Except.error e => Except.error e
      | Except.ok results => Except.ok (handler message :: results)

/-- Concatenation of the per-message response lists (the nested
`for responses in results: for response in responses` enqueue order). -/
def flattenAll {α : Type} : List (List α) → List α
  | [] => []
  | xs :: rest => xs ++ flattenAll rest

/-- Observable state of the `while` loop of `run_task_async` at exit. -/
structure LoopState where
  completed : Bool
  processed : Int
  history : List AgentMessage
  queue : List AgentMessage

/-- The `while self._queue and processed < max_steps` loop of
`run_task_async`, structural on an explicit fuel.  Each iteration drains
the whole queue as one batch, appends it to the history, dispatches it,
enqueues all responses (with the task id back-filled) and advances
`processed` by the batch size.  The fuel-0 exit returns the same value as
the guard exit; the wrapper `runLoop` supplies enough fuel for it to be
reached only when the guard fails anyway. -/
def runLoopFuel (agents : String → Option (AgentMessage → List AgentMessage))
    (task_id : String) (max_steps : Int) :
    Nat → List AgentMessage → List AgentMessage → Int → Except String LoopState
  | 0, queue, history, processed =>
    Except.ok { completed := queue.isEmpty, processed := processed,
                history := history, queue := queue }
  | fuel + 1, queue, history, processed =>
    if queue.isEmpty ∨ max_steps ≤ processed then
      Except.ok { completed := queue.isEmpty, processed := processed,
                  history := history, queue := queue }
    else
      match dispatchBatch agents queue with
      | Except.error e => Except.error e
      | Except.ok results =>
        runLoopFuel agents task_id max_steps fuel
          (flattenAll (results.map
            (fun responses => responses.map (setTaskIdDefault task_id))))
          (history ++ queue) (processed + (queue.length : Int))

/-- The loop with its fuel instantiated: `(max_steps - processed).toNat`
bounds the iteration count, since `processed` grows by at least one per
iteration and the guard requires `processed < max_steps`. -/
def runLoop (agents : String → Option (AgentMessage → List AgentMessage))
    (task_id : String) (max_steps : Int) (queue history : List AgentMessage)
    (processed : Int) : Except String LoopState :=
  runLoopFuel agents task_id max_steps (max_steps - processed).toNat
    queue history processed

/-- Seed message of `_build_initial_state`: metadata is
`{"task_id": task.task_id, **task.initial_metadata}`. -/
def initialMessage (task : UserTask) : AgentMessage :=
  { sender := "user", recipient := task.initial_agent_id,
    content := task.description,
    metadata := dictMerge [("task_id", Json.str task.task_id)]
      task.initial_metadata }

/-- `Orchestrator._build_initial_state`. -/
def Orchestrator.build_initial_state (o : Orchestrator) (task : UserTask) :
    WorkflowState :=
  { task_id := task.task_id, task_description := task.description,
    initial_agent_id := task.initial_agent_id,
    pending_messages := [initialMessage task],
    history := [], messages_processed := 0,
    approval_counter := o.approval_counter,
    pending_approvals := o.pending_approvals }

/-- Observable outcome of `run_task_async`: the returned `TaskResult`
together with the orchestrator state it leaves behind (`self._queue`, the
restored `_approval_counter` and `_pending_approvals`), which is what
`snapshot_state` captures afterwards. -/
structure RunOutcome where
  result : TaskResult
  final_queue : List AgentMessage
  approval_counter : Int
  pending_approvals : List (String × ApprovalRequest)

/-- `Orchestrator.run_task_async`: validate the workflow state against the
task, restore queue/history/counters from it, and run the superstep loop. -/
def Orchestrator.run_task_async (o : Orchestrator) (task : UserTask)
    (max_steps : Int) (state : Option WorkflowState) :
    Except String RunOutcome :=
  let workflow_state := state.getD (o.build_initial_state task)
  if workflow_state.task_id ≠ task.task_id then
    Except.error "Task ID does not match workflow state."
  else if workflow_state.initial_agent_id ≠ task.initial_agent_id then
    Except.error "Initial agent does not match workflow state."
  else
    match runLoop o.agents task.task_id max_steps workflow_state.pending_messages
        workflow_state.history workflow_state.messages_processed with
    | Except.error e => Except.error e
    | Except.ok s =>
      Except.ok { result := { task_id := task.task_id, completed := s.completed,
                              messages_processed := s.processed,
                              history := s.history },
                  final_queue := s.queue,
                  approval_counter := workflow_state.approval_counter,
                  pending_approvals := workflow_state.pending_approvals }

/-- `Orchestrator.run_task` (the `asyncio.run` wrapper). -/
def Orchestrator.run_task (o : Orchestrator) (task : UserTask) (max_steps : Int) :
    Except String RunOutcome :=
  o.run_task_async task max_steps none

/-- `Orchestrator.snapshot_state` called right after a run: the queue is
`self._queue` as `run_task_async` left it, history and processed are the
run's, and the counters are the ones the run restored. -/
def snapshotAfter (task : UserTask) (out : RunOutcome) : WorkflowState :=
  { task_id := task.task_id, task_description := task.description,
    initial_agent_id := task.initial_agent_id,
    pending_messages := out.final_queue,
    history := out.result.history,
    messages_processed := out.result.messages_processed,
    approval_counter := out.approval_counter,
    pending_approvals := out.pending_approvals }

/-- `Orchestrator.resume_task`: rebuild the `UserTask` from the state and
re-enter `run_task_async` with the state. -/
def Orchestrator.resume_task (o : Orchestrator) (state : WorkflowState)
    (max_steps : Int) : Except String RunOutcome :=
  o.run_task_async
    { task_id := state.task_id, description := state.task_description,
      initial_agent_id := state.initial_agent_id }
    max_steps (some state)

/-- Helper: every successful loop exit reports `completed` exactly when the
remaining queue is empty. -/
theorem runLoopFuel_ok_completed
    (agents : String → Option (AgentMessage → List AgentMessage))
    (task_id : String) (max_steps : Int) :
    ∀ (fuel : Nat) (queue history : List AgentMessage) (processed : Int)
      (s : LoopState),
      runLoopFuel agents task_id max_steps fuel queue history processed =
        Except.ok s →
      s.completed = s.queue.isEmpty := by
  intro fuel
  induction fuel with
  | zero =>
    intro queue history processed s h
    simp only [runLoopFuel] at h
    cases h
    rfl
  | succ n ih =>
    intro queue history processed s h
    simp only [runLoopFuel] at h
    split at h
    · cases h
      rfl
    · split at h
      · exact absurd h (by simp)
      · exact ih _ _ _ _ h

/-- Helper: the loop never decreases the processed count. -/
theorem runLoopFuel_processed_le
    (agents : String → Option (AgentMessage → List AgentMessage))
    (task_id : String) (max_steps : Int) :
    ∀ (fuel : Nat) (queue history : List AgentMessage) (processed : Int)
      (s : LoopState),
      runLoopFuel agents task_id max_steps fuel queue history processed =
        Except.ok s →
      processed ≤ s.processed := by
  intro fuel
  induction fuel with
  | zero =>
    intro queue history processed s h
    simp only [runLoopFuel] at h
    cases h
    exact le_refl _
  | succ n ih =>
    intro queue history processed s h
    simp only [runLoopFuel] at h
    split at h
    · cases h
      exact le_refl _
    · split at h
      · exact absurd h (by simp)
      · have h2 := ih _ _ _ _ h
        have h3 : (0 : Int) ≤ (queue.length : Int) := Int.ofNat_nonneg _
        omega

/-- Helper: when the loop exits not-completed and started with enough fuel,
the processed count has reached the step budget. -/
theorem runLoopFuel_halted
    (agents : String → Option (AgentMessage → List AgentMessage))
    (task_id : String) (max_steps : Int) :
    ∀ (fuel : Nat) (queue history : List AgentMessage) (processed : Int)
      (s : LoopState),
      (max_steps - processed).toNat ≤ fuel →
      runLoopFuel agents task_id max_steps fuel queue history processed =
        Except.ok s →
      s.completed = false →
      max_steps ≤ s.processed := by
  intro fuel
  induction fuel with
  | zero =>
    intro queue history processed s hf h hc
    simp only [runLoopFuel] at h
    cases h
    simp only []
    omega
  | succ n ih =>
    intro queue history processed s hf h hc
    simp only [runLoopFuel] at h
    split at h
    next hcond =>
      cases h
      rcases hcond with hcond | hcond
      · simp only [] at hc
        rw [hcond] at hc
        cases hc
      · exact hcond
    next hcond =>
      split at h
      · exact absurd h (by simp)
      · have hq : queue ≠ [] := by
          intro he
          exact hcond (Or.inl (by simp [he]))
        have hp : processed < max_steps := by
          by_contra hcon
          exact hcond (Or.inr (by omega))
        have hlen : 0 < queue.length := List.length_pos.mpr hq
        exact ih _ _ _ _ (by omega) h hc

/-- Helper: two sufficient fuels drive the loop to the same outcome. -/
theorem runLoopFuel_irrel
    (agents : String → Option (AgentMessage → List AgentMessage))
    (task_id : String) (max_steps : Int) :
    ∀ (fuel1 fuel2 : Nat) (queue history : List AgentMessage) (processed : Int),
      (max_steps - processed).toNat ≤ fuel1 →
      (max_steps - processed).toNat ≤ fuel2 →
      runLoopFuel agents task_id max_steps fuel1 queue history processed =
      runLoopFuel agents task_id max_steps fuel2 queue history processed := by
  intro fuel1
  induction fuel1 with
  | zero =>
    intro fuel2 queue history processed h1 h2
    have hmp : max_steps ≤ processed := by omega
    cases fuel2 with
    | zero => rfl
    | succ n2 =>
      simp only [runLoopFuel]
      rw [if_pos (Or.inr hmp)]
  | succ n1 ih =>
    intro fuel2 queue history processed h1 h2
    by_cases hcond : queue.isEmpty ∨ max_steps ≤ processed
    · cases fuel2 with
      | zero =>
        simp only [runLoopFuel]
        rw [if_pos hcond]
      | succ n2 =>
        simp only [runLoopFuel]
        rw [if_pos hcond, if_pos hcond]
    · have hq : queue ≠ [] := by
        intro he
        exact hcond (Or.inl (by simp [he]))
      have hp : processed < max_steps := by
        by_contra hcon
        exact hcond (Or.inr (by omega))
      have hlen : 0 < queue.length := List.length_pos.mpr hq
      cases fuel2 with
      | zero => omega
      | succ n2 =>
        simp only [runLoopFuel]
        rw [if_neg hcond, if_neg hcond]
        cases hd : dispatchBatch agents queue with
        | error e => rfl
        | ok results => exact ih n2 _ _ _ (by omega) (by omega)

/-- Helper: a run that empties its queue within budget `M` behaves
identically under any budget `N` at least its final processed count: every
iteration it takes is also taken under `N`, and the empty-queue exit does
not consult the budget. -/
theorem runLoopFuel_complete_mono
    (agents : String → Option (AgentMessage → List AgentMessage))
    (task_id : String) :
    ∀ (fuelM : Nat) (M N : Int) (fuelN : Nat)
      (queue history : List AgentMessage) (processed : Int) (s : LoopState),
      (M - processed).toNat ≤ fuelM →
      runLoopFuel agents task_id M fuelM queue history processed =
        Except.ok s →
      s.queue = [] → s.processed ≤ N →
      (N - processed).toNat ≤ fuelN →
      runLoopFuel agents task_id N fuelN queue history processed =
        Except.ok s := by
  intro fuelM
  induction fuelM with
  | zero =>
    intro M N fuelN queue history processed s hfM h hq hsN hfN
    simp only [runLoopFuel] at h
    cases h
    simp only [] at hq
    subst hq
    cases fuelN with
    | zero => simp [runLoopFuel]
    | succ n2 => simp [runLoopFuel]
  | succ n ih =>
    intro M N fuelN queue history processed s hfM h hq hsN hfN
    simp only [runLoopFuel] at h
    split at h
    next hcond =>
      cases h
      simp only [] at hq
      subst hq
      cases fuelN with
      | zero => simp [runLoopFuel]
      | succ n2 => simp [runLoopFuel]
    next hcond =>
      have hqn : queue ≠ [] := by
        intro he
        exact hcond (Or.inl (by simp [he]))
      have hpM : processed < M := by
        by_contra hcon
        exact hcond (Or.inr (by omega))
      have hlen : 0 < queue.length := List.length_pos.mpr hqn
      split at h
      · exact absurd h (by simp)
      next results hd =>
        have hstep : processed < s.processed := by
          have h2 := runLoopFuel_processed_le agents task_id M n _ _ _ _ h
          omega
        have hpN : processed < N := by omega
        cases fuelN with
        | zero => omega
        | succ n2 =>
          have hcondN : ¬(queue.isEmpty ∨ N ≤ processed) := by
            intro hc
            rcases hc with hc | hc
            · exact hcond (Or.inl hc)
            · omega
          simp only [runLoopFuel]
          rw [if_neg hcondN, hd]
          exact ih M N n2 _ _ _ _ (by omega) h hq hsN (by omega)

/-- Helper: resuming from any intermediate stop of a budget-`k` run and
continuing under budget `N` reaches exactly the state the uninterrupted
budget-`N` run reaches, provided that run empties its queue. -/
theorem runLoopFuel_resume
    (agents : String → Option (AgentMessage → List AgentMessage))
    (task_id : String) :
    ∀ (fuelk : Nat) (k N : Int) (fuelN : Nat)
      (queue history : List AgentMessage) (processed : Int) (sk sN : LoopState),
      (k - processed).toNat ≤ fuelk →
      runLoopFuel agents task_id k fuelk queue history processed =
        Except.ok sk →
      (N - processed).toNat ≤ fuelN →
      runLoopFuel agents task_id N fuelN queue history processed =
        Except.ok sN →
      sN.queue = [] →
      runLoopFuel agents task_id N ((N - sk.processed).toNat)
        sk.queue sk.history sk.processed = Except.ok sN := by
  intro fuelk
  induction fuelk with
  | zero =>
    intro k N fuelN queue history processed sk sN hfk hk hfN hN hq
    simp only [runLoopFuel] at hk
    cases hk
    have hirr := runLoopFuel_irrel agents task_id N
      ((N - processed).toNat) fuelN queue history processed (le_refl _) hfN
    exact hirr.trans hN
  | succ n ih =>
    intro k N fuelN queue history processed sk sN hfk hk hfN hN hq
    simp only [runLoopFuel] at hk
    split at hk
    next hcond =>
      cases hk
      have hirr := runLoopFuel_irrel agents task_id N
        ((N - processed).toNat) fuelN queue history processed (le_refl _) hfN
      exact hirr.trans hN
    next hcond =>
      have hqn : queue ≠ [] := by
        intro he
        exact hcond (Or.inl (by simp [he]))
      have hpk : processed < k := by
        by_contra hcon
        exact hcond (Or.inr (by omega))
      have hlen : 0 < queue.length := List.length_pos.mpr hqn
      split at hk
      · exact absurd hk (by simp)
      next results hd =>
        have hpN : processed < N := by
          by_contra hcon
          cases fuelN with
          | zero =>
            simp only [runLoopFuel] at hN
            cases hN
            exact hqn hq
          | succ n2 =>
            simp only [runLoopFuel] at hN
            rw [if_pos (Or.inr (by omega))] at hN
            cases hN
            exact hqn hq
        cases fuelN with
        | zero => omega
        | succ n2 =>
          have hcondN : ¬(queue.isEmpty ∨ N ≤ processed) := by
            intro hc
            rcases hc with hc | hc
            · exact hcond (Or.inl hc)
            · omega
          simp only [runLoopFuel] at hN
          rw [if_neg hcondN, hd] at hN
          exact ih k N n2 _ _ _ sk sN (by omega) hk (by omega) hN hq

/-- Helper: inversion of a fresh `run_task` call into its loop run and the
provenance of the outcome's fields. -/
theorem run_task_inv (o : Orchestrator) (task : UserTask) (max_steps : Int)
    (out : RunOutcome) (h : o.run_task task max_steps = Except.ok out) :
    runLoop o.agents task.task_id max_steps [initialMessage task] [] 0 =
      Except.ok { completed := out.result.completed,
                  processed := out.result.messages_processed,
                  history := out.result.history, queue := out.final_queue } ∧
    out.result.task_id = task.task_id ∧
    out.approval_counter = o.approval_counter ∧
    out.pending_approvals = o.pending_approvals := by
  unfold Orchestrator.run_task Orchestrator.run_task_async at h
  simp only [Option.getD_none, Orchestrator.build_initial_state] at h
  rw [if_neg (by simp), if_neg (by simp)] at h
  cases hs : runLoop o.agents task.task_id max_steps [initialMessage task] [] 0 with
  | error e =>
    rw [hs] at h
    exact absurd h (by simp)
  | ok s =>
    rw [hs] at h
    simp only [Except.ok.injEq] at h
    rw [← h]
    exact ⟨rfl, rfl, rfl, rfl⟩

/-- C1 (amended): for a run over registered agents with budget N ≥ 1,
`completed` is true exactly when the pending queue is empty at loop exit;
when the agent graph terminates within some budget M and N is at least
that run's total messages processed, the budget-N run returns that same
completed outcome; otherwise the run halts with `completed = false`, a
non-empty remaining queue, and `messages_processed ≥ N` (the count can
overshoot N, since a whole batch is processed even when it crosses the
budget, so equality with N does not hold in general). -/
theorem run_task_step_budget (o : Orchestrator) (task : UserTask) (N : Int)
    (out : RunOutcome) (hN1 : 1 ≤ N)
    (h : o.run_task task N = Except.ok out) :
    (out.result.completed = true ↔ out.final_queue = []) ∧
    (out.result.completed = false →
      out.final_queue ≠ [] ∧ N ≤ out.result.messages_processed) ∧
    (∀ (M : Int) (outM : RunOutcome),
      o.run_task task M = Except.ok outM →
      outM.result.completed = true →
      outM.result.messages_processed ≤ N →
      out = outM) := by
  obtain ⟨hloop, htid, hcnt, hpend⟩ := run_task_inv o task N out h
  have hcomp := runLoopFuel_ok_completed o.agents task.task_id N _ _ _ _ _ hloop
  simp only [] at hcomp
  refine ⟨?_, ?_, ?_⟩
  · rw [hcomp]
    exact List.isEmpty_iff
  · intro hcf
    constructor
    · intro he
      rw [hcomp, he] at hcf
      simp at hcf
    · unfold runLoop at hloop
      exact runLoopFuel_halted o.agents task.task_id N _ _ _ _ _
        (le_refl _) hloop hcf
  · intro M outM hM hcM hleM
    obtain ⟨hloopM, htidM, hcntM, hpendM⟩ := run_task_inv o task M outM hM
    have hcompM := runLoopFuel_ok_completed o.agents task.task_id M _ _ _ _ _ hloopM
    simp only [] at hcompM
    have hqM : outM.final_queue = [] := by
      rw [hcM] at hcompM
      exact List.isEmpty_iff.mp hcompM.symm
    unfold runLoop at hloop hloopM
    have hmono := runLoopFuel_complete_mono o.agents task.task_id
      ((M - 0).toNat) M N ((N - 0).toNat) [initialMessage task] [] 0
      _ (le_refl _) hloopM hqM hleM (le_refl _)
    have hEq := hloop.symm.trans hmono
    simp only [Except.ok.injEq, LoopState.mk.injEq] at hEq
    obtain ⟨e1, e2, e3, e4⟩ := hEq
    obtain ⟨⟨rt, rc, rp, rh⟩, fq, cnt, pend⟩ := out
    obtain ⟨⟨rtM, rcM, rpM, rhM⟩, fqM, cntM, pendM⟩ := outM
    simp only [] at e1 e2 e3 e4 htid htidM hcnt hcntM hpend hpendM hqM
    subst e1
    subst e2
    subst e3
    subst e4
    subst htid
    subst htidM
    subst hcnt
    subst hcntM
    subst hpend
    subst hpendM
    rfl

/-- Fixture: a single self-looping agent that answers every message with
two messages back to itself, so the queue doubles every superstep. -/
def fanoutOrchestrator : Orchestrator :=
  { agents := fun id =>
      if id = "a" then
        some (fun _ =>
          [{ sender := "a", recipient := "a", content := "again", metadata := [] },
           { sender := "a", recipient := "a", content := "again", metadata := [] }])
      else none,
    tool_registry := { tools := [] },
    approval_policy := {},
    approval_counter := 0,
    pending_approvals := [] }

/-- Fixture: the task seeding the fan-out agent. -/
def fanoutTask : UserTask :=
  { task_id := "t", description := "go", initial_agent_id := "a" }

/-- C1 counterexample: with budget N = 2 the fan-out run halts
(`completed = false`, non-empty queue) but `messages_processed = 3`, not 2:
the second superstep's batch of two messages is processed whole even though
it crosses the budget, so the claim's `messages_processed == N` is false. -/
theorem run_task_messages_processed_eq_budget_cex :
    ∃ out, fanoutOrchestrator.run_task fanoutTask 2 = Except.ok out ∧
      out.result.completed = false ∧
      out.final_queue ≠ [] ∧
      out.result.messages_processed = 3 ∧
      ¬(out.result.messages_processed = 2) := by
  refine ⟨_, rfl, rfl, by simp [flattenAll], rfl, by decide⟩

/-- Fixture: a two-agent terminating pipeline: "a" forwards one message to
"b", "b" answers nothing. -/
def chainOrchestrator : Orchestrator :=
  { agents := fun id =>
      if id = "a" then
        some (fun _ =>
          [{ sender := "a", recipient := "b", content := "forward",
             metadata := [] }])
      else if id = "b" then some (fun _ => [])
      else none,
    tool_registry := { tools := [] },
    approval_policy := {},
    approval_counter := 0,
    pending_approvals := [] }

/-- Fixture: the task seeding the chain. -/
def chainTask : UserTask :=
  { task_id := "t1", description := "start", initial_agent_id := "a" }

/-- Witness for C1's amended theorem on the terminating chain with N = 5. -/
theorem run_task_step_budget_witness :
    ∃ out, fanoutOrchestrator.run_task fanoutTask 2 = Except.ok out ∧
      (out.result.completed = true ↔ out.final_queue = []) := by
  refine ⟨_, rfl, ?_⟩
  exact (run_task_step_budget fanoutOrchestrator fanoutTask 2 _
    (by decide) rfl).1

/-- C2: with deterministic agents, a task run to completion in one
uninterrupted `run_task(N)` call and the same task run as `run_task(k)`
followed by `resume_task` (budget N) on the snapshot taken at that
superstep boundary produce the same outcome — identical final history and
identical `TaskResult` — for every k. -/
theorem run_split_resume_equivalence (o : Orchestrator) (task : UserTask)
    (N k : Int) (outN outK : RunOutcome)
    (hN : o.run_task task N = Except.ok outN)
    (hcomp : outN.result.completed = true)
    (hk : o.run_task task k = Except.ok outK) :
    o.resume_task (snapshotAfter task outK) N = Except.ok outN := by
  obtain ⟨hloopN, htidN, hcntN, hpendN⟩ := run_task_inv o task N outN hN
  obtain ⟨hloopK, htidK, hcntK, hpendK⟩ := run_task_inv o task k outK hk
  have hcN := runLoopFuel_ok_completed o.agents task.task_id N _ _ _ _ _ hloopN
  simp only [] at hcN
  have hqN : outN.final_queue = [] := by
    rw [hcomp] at hcN
    exact List.isEmpty_iff.mp hcN.symm
  unfold runLoop at hloopN hloopK
  have hres := runLoopFuel_resume o.agents task.task_id
    ((k - 0).toNat) k N ((N - 0).toNat) [initialMessage task] [] 0
    _ _ (le_refl _) hloopK (le_refl _) hloopN hqN
  obtain ⟨⟨rtN, rcN, rpN, rhN⟩, fqN, cntN, pendN⟩ := outN
  obtain ⟨⟨rtK, rcK, rpK, rhK⟩, fqK, cntK, pendK⟩ := outK
  simp only [] at htidN hcntN hpendN htidK hcntK hpendK hqN hres hcomp
  subst htidN
  subst htidK
  subst hcntN
  subst hcntK
  subst hpendN
  subst hpendK
  subst hqN
  subst hcomp
  unfold Orchestrator.resume_task Orchestrator.run_task_async
  rw [if_neg (by simp), if_neg (by simp)]
  unfold runLoop
  simp only [snapshotAfter, Option.getD_some]
  rw [hres]

/-- Projection of the uninterrupted budget-5 chain run. -/
def chainRunFull : RunOutcome :=
  match chainOrchestrator.run_task chainTask 5 with
  | Except.ok out => out
  | Except.error _ =>
    { result := { task_id := "", completed := false, messages_processed := 0,
                  history := [] },
      final_queue := [], approval_counter := 0, pending_approvals := [] }

/-- Projection of the budget-1 chain run, halted at a superstep boundary. -/
def chainRunShort : RunOutcome :=
  match chainOrchestrator.run_task chainTask 1 with
  | Except.ok out => out
  | Except.error _ =>
    { result := { task_id := "", completed := false, messages_processed := 0,
                  history := [] },
      final_queue := [], approval_counter := 0, pending_approvals := [] }

/-- Witness for C2: resuming the budget-1 snapshot of the chain run under
budget 5 reproduces the uninterrupted budget-5 outcome. -/
theorem run_split_resume_equivalence_witness :
    chainOrchestrator.resume_task (snapshotAfter chainTask chainRunShort) 5 =
      Except.ok chainRunFull :=
  run_split_resume_equivalence chainOrchestrator chainTask 5 1
    chainRunFull chainRunShort rfl rfl rfl

/-- Helper: membership in a concatenation of lists. -/
theorem mem_flattenAll {α : Type} (a : α) :
    ∀ (L : List (List α)), a ∈ flattenAll L ↔ ∃ xs ∈ L, a ∈ xs := by
  intro L
  induction L with
  | nil => simp [flattenAll]
  | cons xs rest ih => simp [flattenAll, ih]

/-- Helper: every message a successful dispatch returns was produced by
some registered handler on some message of the batch. -/
theorem dispatchBatch_ok_mem
    (agents : String → Option (AgentMessage → List AgentMessage)) :
    ∀ (batch : List AgentMessage) (results : List (List AgentMessage)),
      dispatchBatch agents batch = Except.ok results →
      ∀ rs ∈ results, ∀ r ∈ rs,
        ∃ m handler, m ∈ batch ∧ agents m.recipient = some handler ∧
          r ∈ handler m := by
  intro batch
  induction batch with
  | nil =>
    intro results h rs hrs r hr
    simp only [dispatchBatch, Except.ok.injEq] at h
    subst h
    simp at hrs
  | cons msg rest ih =>
    intro results h rs hrs r hr
    simp only [dispatchBatch] at h
    cases ha : agents msg.recipient with
    | none =>
      rw [ha] at h
      exact absurd h (by simp)
    | some handler =>
      rw [ha] at h
      cases hd : dispatchBatch agents rest with
      | error e =>
        rw [hd] at h
        exact absurd h (by simp)
      | ok results2 =>
        rw [hd] at h
        simp only [Except.ok.injEq] at h
        subst h
        rcases List.mem_cons.mp hrs with hrs1 | hrs2
        · subst hrs1
          exact ⟨msg, handler, List.mem_cons_self _ _, ha, hr⟩
        · obtain ⟨m, handler2, hm, hag, hr2⟩ := ih results2 hd rs hrs2 r hr
          exact ⟨m, handler2, List.mem_cons_of_mem _ hm, hag, hr2⟩

/-- Helper: a recipient-avoidance invariant of the loop.  If no registered
handler ever produces a message addressed to `pid` and neither the starting
queue nor the starting history contains one, then neither the final history
nor the final queue does. -/
theorem runLoopFuel_recipient_closed
    (agents : String → Option (AgentMessage → List AgentMessage))
    (task_id : String) (max_steps : Int) (pid : String)
    (hA : ∀ a handler, agents a = some handler →
      ∀ m r, r ∈ handler m → r.recipient ≠ pid) :
    ∀ (fuel : Nat) (queue history : List AgentMessage) (processed : Int)
      (s : LoopState),
      (∀ m ∈ queue, m.recipient ≠ pid) →
      (∀ m ∈ history, m.recipient ≠ pid) →
      runLoopFuel agents task_id max_steps fuel queue history processed =
        Except.ok s →
      (∀ m ∈ s.history, m.recipient ≠ pid) ∧
      (∀ m ∈ s.queue, m.recipient ≠ pid) := by
  intro fuel
  induction fuel with
  | zero =>
    intro queue history processed s hq hh h
    simp only [runLoopFuel] at h
    cases h
    exact ⟨hh, hq⟩
  | succ n ih =>
    intro queue history processed s hq hh h
    simp only [runLoopFuel] at h
    split at h
    · cases h
      exact ⟨hh, hq⟩
    · split at h
      · exact absurd h (by simp)
      next results hd =>
        refine ih _ _ _ _ ?_ ?_ h
        · intro m hm
          rcases (mem_flattenAll m _).mp hm with ⟨ys, hys, hmys⟩
          rcases List.mem_map.mp hys with ⟨rs, hrs, hrseq⟩
          subst hrseq
          rcases List.mem_map.mp hmys with ⟨r, hr, hreq⟩
          subst hreq
          obtain ⟨m0, handler, hm0, hag, hr0⟩ :=
            dispatchBatch_ok_mem agents _ _ hd rs hrs r hr
          show r.recipient ≠ pid
          exact hA _ _ hag _ _ hr0
        · intro m hm
          rcases List.mem_append.mp hm with hm | hm
          · exact hh m hm
          · exact hq m hm

/-- C7: whenever the policy mode is not "approval-required" (autonomous),
`request_approval` synthesizes `approved = true` with approver "system",
delivers no message to any agent and records no pending request (the
orchestrator state is returned unchanged); and in any run the proxy agent
id appears as a message recipient only if the seed message or some
registered handler addresses it — the orchestrator itself introduces no
message to the proxy, so under autonomous mode the designated proxy id
never appears as a recipient during a run whose task and agents do not
address it. -/
theorem autonomous_mode_no_proxy_roundtrip :
    (∀ (o : Orchestrator) (request : ApprovalRequest),
      o.approval_policy.mode ≠ "approval-required" →
      o.request_approval request =
        Except.ok ({ approved := true, approver := "system",
                     notes := some "Autonomous mode: approval bypassed." },
                   o, [])) ∧
    (∀ (o : Orchestrator) (task : UserTask) (N : Int) (out : RunOutcome)
       (pid : String),
      o.run_task task N = Except.ok out →
      task.initial_agent_id ≠ pid →
      (∀ a handler, o.agents a = some handler →
        ∀ m r, r ∈ handler m → r.recipient ≠ pid) →
      (∀ m ∈ out.result.history, m.recipient ≠ pid) ∧
      (∀ m ∈ out.final_queue, m.recipient ≠ pid)) := by
  constructor
  · intro o request hmode
    simp [Orchestrator.request_approval, hmode]
  · intro o task N out pid h hinit hA
    obtain ⟨hloop, htid, hcnt, hpend⟩ := run_task_inv o task N out h
    unfold runLoop at hloop
    have hinv := runLoopFuel_recipient_closed o.agents task.task_id N pid hA
      _ _ _ _ _ ?_ ?_ hloop
    · exact hinv
    · intro m hm
      rcases List.mem_singleton.mp hm with rfl
      exact hinit
    · intro m hm
      simp at hm

/-- Helper: a batch containing an unresolved recipient dispatches to the
"Unknown agent" error naming the first unresolved recipient in batch order. -/
theorem dispatchBatch_unknown
    (agents : String → Option (AgentMessage → List AgentMessage)) :
    ∀ (batch : List AgentMessage) (m : AgentMessage),
      m ∈ batch → agents m.recipient = none →
      ∃ id, agents id = none ∧ id ∈ batch.map AgentMessage.recipient ∧
        dispatchBatch agents batch = Except.error ("Unknown agent: " ++ id) := by
  intro batch
  induction batch with
  | nil =>
    intro m hm hu
    cases hm
  | cons msg rest ih =>
    intro m hm hu
    cases ha : agents msg.recipient with
    | none =>
      refine ⟨msg.recipient, ha, by simp, ?_⟩
      simp [dispatchBatch, ha]
    | some handler =>
      have hm2 : m ∈ rest := by
        rcases List.mem_cons.mp hm with he | h2
        · rw [← he] at ha
          rw [ha] at hu
          cases hu
        · exact h2
      obtain ⟨id, h1, h2, h3⟩ := ih m hm2 hu
      refine ⟨id, h1, by simp [h2], ?_⟩
      simp [dispatchBatch, ha, h3]

/-- C8: dispatching a batch that contains a message whose recipient id has
no registered agent fails the whole batch with the fatal
"Unknown agent: <id>" error naming an unresolved recipient of the batch,
and the run whose superstep begins on that batch aborts with that same
error — the message is never silently dropped. -/
theorem dispatch_unknown_agent_fatal
    (agents : String → Option (AgentMessage → List AgentMessage))
    (batch : List AgentMessage) (m : AgentMessage)
    (hm : m ∈ batch) (hu : agents m.recipient = none) :
    ∃ id, agents id = none ∧ id ∈ batch.map AgentMessage.recipient ∧
      dispatchBatch agents batch = Except.error ("Unknown agent: " ++ id) ∧
      ∀ (task_id : String) (max_steps : Int) (history : List AgentMessage)
        (processed : Int), processed < max_steps →
        runLoop agents task_id max_steps batch history processed =
          Except.error ("Unknown agent: " ++ id) := by
  obtain ⟨id, h1, h2, h3⟩ := dispatchBatch_unknown agents batch m hm hu
  refine ⟨id, h1, h2, h3, ?_⟩
  intro task_id max_steps history processed hlt
  have hqne : batch ≠ [] := by
    intro he
    rw [he] at hm
    cases hm
  have hcond : ¬(batch.isEmpty ∨ max_steps ≤ processed) := by
    intro hc
    rcases hc with hc | hc
    · exact hqne (List.isEmpty_iff.mp hc)
    · omega
  unfold runLoop
  have hn : (max_steps - processed).toNat = ((max_steps - processed).toNat - 1) + 1 := by
    omega
  rw [hn]
  simp only [runLoopFuel]
  rw [if_neg hcond, h3]

/-- Fixture: a message addressed to an unregistered agent id. -/
def ghostMessage : AgentMessage :=
  { sender := "user", recipient := "ghost", content := "hello", metadata := [] }

/-- Witness for C8 with an empty agent registry and a singleton batch. -/
theorem dispatch_unknown_agent_fatal_witness :
    dispatchBatch (fun _ => none) [ghostMessage] =
      Except.error "Unknown agent: ghost" ∧
    runLoop (fun _ => none) "t" 5 [ghostMessage] [] 0 =
      Except.error "Unknown agent: ghost" := by
  obtain ⟨id, h1, h2, h3, h4⟩ :=
    dispatch_unknown_agent_fatal (fun _ => none) [ghostMessage] ghostMessage
      (List.mem_singleton_self _) rfl
  have hid : id = "ghost" := by
    simpa [ghostMessage] using h2
  subst hid
  exact ⟨h3, h4 "t" 5 [] 0 (by decide)⟩

/-- Serialization guards (`_expect_str` and friends): `none` models a key
absent from the payload (`payload.get(key)` is `None`, which fails every
`isinstance` check, as does JSON `null`). -/
def expect_str : Option Json → Except String String
  | some (Json.str s) => Except.ok s
  | _ => Except.error "Serialized workflow state is missing a string value."

/-- `_expect_int`.  (Python's `isinstance(True, int)` subtyping corner —
a JSON boolean where an int is expected — is outside the model: the
serializer only ever emits proper ints for these fields.) -/
def expect_int : Option Json → Except String Int
  | some (Json.int n) => Except.ok n
  | _ => Except.error "Serialized workflow state is missing an integer value."

/-- `_expect_dict`. -/
def expect_dict : Option Json → Except String (List (String × Json))
  | some (Json.obj fields) => Except.ok fields
  | _ => Except.error "Serialized workflow state is missing a dict value."

/-- `_expect_list`. -/
def expect_list : Option Json → Except String (List Json)
  | some (Json.arr items) => Except.ok items
  | _ => Except.error "Serialized workflow state is missing a list value."

/-- `_message_to_dict`. -/
def message_to_dict (message : AgentMessage) : Json :=
  Json.obj [("sender", Json.str message.sender),
            ("recipient", Json.str message.recipient),
            ("content", Json.str message.content),
            ("metadata", Json.obj message.metadata)]

/-- `_message_from_dict`. -/
def message_from_dict (payload : Json) : Except String AgentMessage := do
  let data ← expect_dict (some payload)
  let sender ← expect_str (dictGet "sender" data)
  let recipient ← expect_str (dictGet "recipient" data)
  let content ← expect_str (dictGet "content" data)
  let metadata ← expect_dict (dictGet "metadata" data)
  return { sender := sender, recipient := recipient, content := content,
           metadata := metadata }

/-- `_approval_request_to_dict`. -/
def approval_request_to_dict (request : ApprovalRequest) : Json :=
  Json.obj [("action", Json.str request.action),
            ("description", Json.str request.description),
            ("metadata", Json.obj request.metadata)]

/-- `_approval_request_from_dict`. -/
def approval_request_from_dict (payload : Json) :
    Except String ApprovalRequest := do
  let data ← expect_dict (some payload)
  let action ← expect_str (dictGet "action" data)
  let description ← expect_str (dictGet "description" data)
  let metadata ← expect_dict (dictGet "metadata" data)
  return { action := action, description := description, metadata := metadata }

/-- A Python list comprehension over a fallible element decoder: the first
raise aborts the whole comprehension. -/
def mapExcept {α β : Type} (f : α → Except String β) :
    List α → Except String (List β)
  | [] => Except.ok []
  | x :: rest => do
    let y ← f x
    let ys ← mapExcept f rest
    return y :: ys

/-- The dict comprehension decoding `pending_approvals`. -/
def mapExceptPairs (f : Json → Except String ApprovalRequest) :
    List (String × Json) → Except String (List (String × ApprovalRequest))
  | [] => Except.ok []
  | (k, v) :: rest => do
    let r ← f v
    let rs ← mapExceptPairs f rest
    return (k, r) :: rs

/-- `WorkflowState.to_dict`: the fields of the JSON object, in source
order. -/
def WorkflowState.to_dict (s : WorkflowState) : List (String × Json) :=
  [("task_id", Json.str s.task_id),
   ("task_description", Json.str s.task_description),
   ("initial_agent_id", Json.str s.initial_agent_id),
   ("pending_messages", Json.arr (s.pending_messages.map message_to_dict)),
   ("history", Json.arr (s.history.map message_to_dict)),
   ("messages_processed", Json.int s.messages_processed),
   ("approval_counter", Json.int s.approval_counter),
   ("pending_approvals",
     Json.obj (s.pending_approvals.map
       (fun kv => (kv.1, approval_request_to_dict kv.2))))]

/-- `WorkflowState.from_dict`: each field is read with `payload.get(key)`
through its `_expect_*` guard, so the result depends only on key lookup,
never on field order. -/
def WorkflowState.from_dict (payload : List (String × Json)) :
    Except String WorkflowState := do
  let pending_items ← expect_list (dictGet "pending_messages" payload)
  let pending ← mapExcept message_from_dict pending_items
  let history_items ← expect_list (dictGet "history" payload)
  let history ← mapExcept message_from_dict history_items
  let approvals_payload ← expect_dict (dictGet "pending_approvals" payload)
  let pending_approvals ← mapExceptPairs approval_request_from_dict
    approvals_payload
  let task_id ← expect_str (dictGet "task_id" payload)
  let task_description ← expect_str (dictGet "task_description" payload)
  let initial_agent_id ← expect_str (dictGet "initial_agent_id" payload)
  let messages_processed ← expect_int (dictGet "messages_processed" payload)
  let approval_counter ← expect_int (dictGet "approval_counter" payload)
  return { task_id := task_id, task_description := task_description,
           initial_agent_id := initial_agent_id, pending_messages := pending,
           history := history, messages_processed := messages_processed,
           approval_counter := approval_counter,
           pending_approvals := pending_approvals }

/-- `Orchestrator.save_state`: the file receives
`json.dumps(state.to_dict(), indent=2)`; the file's content is modelled as
the JSON value itself, `json.dumps`/`json.loads` of the standard library
being an exact round trip on JSON values. -/
def save_state (state : WorkflowState) : Json :=
  Json.obj state.to_dict

/-- `Orchestrator.load_state`: parse the file, require a JSON object, and
decode it. -/
def load_state (payload : Json) : Except String WorkflowState :=
  match payload with
  | Json.obj fields => WorkflowState.from_dict fields
  | _ => Except.error "Workflow state payload must be a JSON object."

/-- Helper: decoding an encoded message restores it verbatim. -/
theorem message_from_to (m : AgentMessage) :
    message_from_dict (message_to_dict m) = Except.ok m := rfl

/-- Helper: decoding an encoded approval request restores it verbatim. -/
theorem approval_request_from_to (r : ApprovalRequest) :
    approval_request_from_dict (approval_request_to_dict r) = Except.ok r := rfl

/-- Helper: decoding an encoded message list restores it verbatim. -/
theorem mapExcept_message_roundtrip (ms : List AgentMessage) :
    mapExcept message_from_dict (ms.map message_to_dict) = Except.ok ms := by
  induction ms with
  | nil => rfl
  | cons m rest ih =>
    simp only [List.map_cons, mapExcept, message_from_to, ih]
    rfl

/-- Helper: decoding the encoded pending-approvals map restores it. -/
theorem mapExceptPairs_roundtrip (l : List (String × ApprovalRequest)) :
    mapExceptPairs approval_request_from_dict
      (l.map (fun kv => (kv.1, approval_request_to_dict kv.2))) =
      Except.ok l := by
  induction l with
  | nil => rfl
  | cons kv rest ih =>
    obtain ⟨k, r⟩ := kv
    simp only [List.map_cons, mapExceptPairs, approval_request_from_to, ih]
    rfl

/-- Helper: binding a success just applies the continuation. -/
theorem except_bind_ok {α β : Type} (a : α) (f : α → Except String β) :
    (Except.ok a >>= f) = f a := rfl

/-- Helper: `from_dict ∘ to_dict` is the identity. -/
theorem from_dict_to_dict (s : WorkflowState) :
    WorkflowState.from_dict s.to_dict = Except.ok s := by
  simp [WorkflowState.from_dict, WorkflowState.to_dict, dictGet,
    expect_list, expect_dict, expect_str, expect_int, except_bind_ok,
    mapExcept_message_roundtrip, mapExceptPairs_roundtrip]

/-- Helper: `from_dict` reads the payload only through key lookup. -/
theorem from_dict_eq_of_lookup (p1 p2 : List (String × Json))
    (h : ∀ k, dictGet k p1 = dictGet k p2) :
    WorkflowState.from_dict p1 = WorkflowState.from_dict p2 := by
  unfold WorkflowState.from_dict
  simp only [h]

/-- Helper: first-match lookup is invariant under permutation when the
reference list has no duplicate keys. -/
theorem dictGet_perm {α : Type} {l1 l2 : List (String × α)}
    (h : l1.Perm l2) (nd : (l2.map Prod.fst).Nodup) (k : String) :
    dictGet k l1 = dictGet k l2 := by
  induction h with
  | nil => rfl
  | cons x p ih =>
    obtain ⟨xk, xv⟩ := x
    simp only [List.map_cons, List.nodup_cons] at nd
    by_cases hx : xk = k
    · simp [dictGet, hx]
    · simp only [dictGet, hx, if_false]
      exact ih nd.2
  | swap x y l =>
    obtain ⟨xk, xv⟩ := x
    obtain ⟨yk, yv⟩ := y
    simp only [List.map_cons, List.nodup_cons, List.mem_cons] at nd
    have hxy : xk ≠ yk := by
      intro he
      simp [he] at nd
    by_cases hx : xk = k
    · have hy : ¬(yk = k) := by
        intro hk
        exact hxy (hx.trans hk.symm)
      simp [dictGet, hx, hy]
    · by_cases hy : yk = k
      · simp [dictGet, hx, hy]
      · simp [dictGet, hx, hy]
  | trans p1 p2 ih1 ih2 =>
    have nd2 := (List.Perm.nodup_iff (p2.map Prod.fst)).mpr nd
    exact (ih1 nd2).trans (ih2 nd)

/-- Helper: the eight top-level keys of `to_dict` are distinct. -/
theorem to_dict_keys_nodup (s : WorkflowState) :
    (s.to_dict.map Prod.fst).Nodup := by
  simp [WorkflowState.to_dict]

/-- C3: decoding an encoding of any workflow state — also after any
permutation of the serialized object's fields — restores the state
deep-equal, all nested pending messages, history messages, counters and
pending approval requests included; likewise `load_state` after
`save_state`. -/
theorem workflow_state_roundtrip (s : WorkflowState)
    (fields : List (String × Json)) (hperm : fields.Perm s.to_dict) :
    WorkflowState.from_dict fields = Except.ok s ∧
    load_state (save_state s) = Except.ok s := by
  constructor
  · have h := from_dict_eq_of_lookup fields s.to_dict
      (fun k => dictGet_perm hperm (to_dict_keys_nodup s) k)
    rw [h]
    exact from_dict_to_dict s
  · exact from_dict_to_dict s

/-- Fixture: a workflow state with non-trivial nested content. -/
def sampleWorkflowState : WorkflowState :=
  { task_id := "t1", task_description := "demo", initial_agent_id := "planner",
    pending_messages :=
      [{ sender := "user", recipient := "planner", content := "demo",
         metadata := [("task_id", Json.str "t1")] }],
    history :=
      [{ sender := "planner", recipient := "coder", content := "plan",
         metadata := [("task_id", Json.str "t1"), ("step", Json.int 1)] }],
    messages_processed := 1, approval_counter := 2,
    pending_approvals := [("approval-1", sampleRequest)] }

/-- Fixture: the serialized sample state with its first two fields swapped. -/
def sampleWorkflowFields : List (String × Json) :=
  match sampleWorkflowState.to_dict with
  | a :: b :: rest => b :: a :: rest
  | l => l

/-- Witness for C3 at the sample state and its permuted encoding. -/
theorem workflow_state_roundtrip_witness :
    WorkflowState.from_dict sampleWorkflowFields =
      Except.ok sampleWorkflowState ∧
    load_state (save_state sampleWorkflowState) =
      Except.ok sampleWorkflowState :=
  workflow_state_roundtrip sampleWorkflowState sampleWorkflowFields
    (List.Perm.swap _ _ _)
